import Mathlib

/-!
Verification of the in-memory scheduler data model of the hydra queue runner,
shallowly embedded from `src/hydra-queue-runner/state.hh`.  Pure functions of
the header are translated into Lean functions; code that lives only in the
sibling implementation files is modelled from the specification, and each such
definition says so in its doc comment.
-/

namespace Hydra

/-! ### Build and build-step status enums (`state.hh` lines 25–46) -/

/-- `BuildStatus` enum from `state.hh`: persisted build statuses. -/
inductive BuildStatus where
  | bsSuccess
  | bsFailed
  | bsDepFailed
  | bsAborted
  | bsFailedWithOutput
  | bsTimedOut
  | bsUnsupported
  | bsLogLimitExceeded
deriving DecidableEq, Repr

/-- Numeric code of each `BuildStatus` constructor, as assigned in `state.hh`. -/
def BuildStatus.code : BuildStatus → Nat
  | .bsSuccess => 0
  | .bsFailed => 1
  | .bsDepFailed => 2
  | .bsAborted => 3
  | .bsFailedWithOutput => 6
  | .bsTimedOut => 7
  | .bsUnsupported => 9
  | .bsLogLimitExceeded => 10

/-- All `BuildStatus` constructors, in declaration order. -/
def BuildStatus.all : List BuildStatus :=
  [.bsSuccess, .bsFailed, .bsDepFailed, .bsAborted,
   .bsFailedWithOutput, .bsTimedOut, .bsUnsupported, .bsLogLimitExceeded]

/-- `BuildStepStatus` enum from `state.hh`. -/
inductive BuildStepStatus where
  | bssSuccess
  | bssFailed
  | bssAborted
  | bssTimedOut
  | bssCachedFailure
  | bssUnsupported
  | bssLogLimitExceeded
  | bssBusy
deriving DecidableEq, Repr

/-- Numeric code of each `BuildStepStatus` constructor, as assigned in `state.hh`. -/
def BuildStepStatus.code : BuildStepStatus → Nat
  | .bssSuccess => 0
  | .bssFailed => 1
  | .bssAborted => 4
  | .bssTimedOut => 7
  | .bssCachedFailure => 8
  | .bssUnsupported => 9
  | .bssLogLimitExceeded => 10
  | .bssBusy => 100

/-- All `BuildStepStatus` constructors, in declaration order. -/
def BuildStepStatus.all : List BuildStepStatus :=
  [.bssSuccess, .bssFailed, .bssAborted, .bssTimedOut,
   .bssCachedFailure, .bssUnsupported, .bssLogLimitExceeded, .bssBusy]

/-- Whether a build-step status is ever stored (persisted) as a terminal
status.  `state.hh` marks `bssBusy = 100` with the comment `// not stored`;
every other constructor is a persisted terminal status. -/
def BuildStepStatus.stored : BuildStepStatus → Bool
  | .bssBusy => false
  | _ => true

/-! ### Remote build results (`state.hh` lines 49–58) -/

/-- Modelled from the spec: the status carried by a remote build result.  The
underlying enum belongs to `nix::BuildResult`, which is outside this
repository; §4.6 of the spec lists its values as success, transient failure,
misc failure, permanent failure, timeout, log-limit-exceeded and
output-rejected. -/
inductive BuildResultStatus where
  | Success
  | TransientFailure
  | MiscFailure
  | PermanentFailure
  | TimedOut
  | LogLimitExceeded
  | OutputRejected
deriving DecidableEq, Repr

/-- `RemoteResult` from `state.hh`: the outcome of one remote build, holding
the `nix::BuildResult` status plus timings and a log file path. -/
structure RemoteResult where
  status : BuildResultStatus
  startTime : Int := 0
  stopTime : Int := 0
  logFile : String := ""

/-- `RemoteResult::canRetry` from `state.hh`:
`return status == TransientFailure || status == MiscFailure;` -/
def RemoteResult.canRetry (r : RemoteResult) : Bool :=
  r.status == .TransientFailure || r.status == .MiscFailure

/-! ### Jobsets (`state.hh` lines 65–100) -/

/-- `Jobset` from `state.hh`: a fairness bucket.  `seconds` caches the total
duration of the window entries, `shares` is the tenant weight (an
`unsigned int`, embedded as `Nat`), and `steps` is the sliding window of
recent build steps ("the start time and duration of the most recent build
steps"), embedded as a list of `(startTime, duration)` pairs. -/
structure Jobset where
  seconds : Int
  shares : Nat
  steps : List (Int × Int)

/-- `Jobset::schedulingWindow` from `state.hh`: `24 * 60 * 60` seconds. -/
def Jobset.schedulingWindow : Int := 24 * 60 * 60

/-- A freshly constructed jobset: the in-class initialisers of `state.hh` give
`seconds{0}`, `shares{1}` and an empty step window. -/
def Jobset.init : Jobset := { seconds := 0, shares := 1, steps := [] }

/-- `Jobset::shareUsed` from `state.hh`:
`return (double) seconds / shares;` (embedded with exact rational
division in place of `double` division). -/
def Jobset.shareUsed (j : Jobset) : ℚ := (j.seconds : ℚ) / (j.shares : ℚ)

/-- `Jobset::getSeconds` from `state.hh`. -/
def Jobset.getSeconds (j : Jobset) : Int := j.seconds

/-- `Jobset::setShares` from `state.hh`:
`assert(shares_ > 0); shares = shares_;` — a failed assertion aborts, which
the embedding renders as `none`. -/
def Jobset.setShares (j : Jobset) (shares_ : Int) : Option Jobset :=
  if shares_ > 0 then some { j with shares := shares_.toNat } else none

/-- Modelled from the spec: `Jobset::addStep` is declared in `state.hh` but
defined in an implementation file that is not part of this repository
snapshot.  Per §3 and §4.7 of the spec it records the step's
`(startTime, duration)` in the sliding window and accounts the duration into
the cached seconds total. -/
def Jobset.addStep (j : Jobset) (startTime duration : Int) : Jobset :=
  { j with
    steps := (startTime, duration) :: j.steps
    seconds := j.seconds + duration }

/-- Modelled from the spec: `Jobset::pruneSteps` is declared in `state.hh`
but defined in an implementation file that is not part of this repository
snapshot.  Per §3 of the spec the window "retains entries whose start time is
within the last 24 hours": every older entry is dropped and its duration
subtracted from the cached seconds total. -/
def Jobset.pruneSteps (j : Jobset) (now : Int) : Jobset :=
  { j with
    steps := j.steps.filter (fun e => now - Jobset.schedulingWindow < e.1)
    seconds := j.seconds -
      ((j.steps.filter
          (fun e => !(decide (now - Jobset.schedulingWindow < e.1)))).map
        (fun e => e.2)).sum }

/-- The jobset states reachable from a freshly constructed jobset through the
public mutators of `state.hh` (`setShares`, `addStep`, `pruneSteps`). -/
inductive Jobset.Reachable : Jobset → Prop where
  | init : Jobset.Reachable Jobset.init
  | setShares (j j' : Jobset) (n : Int) :
      Jobset.Reachable j → j.setShares n = some j' → Jobset.Reachable j'
  | addStep (j : Jobset) (st d : Int) :
      Jobset.Reachable j → Jobset.Reachable (j.addStep st d)
  | pruneSteps (j : Jobset) (now : Int) :
      Jobset.Reachable j → Jobset.Reachable (j.pruneSteps now)

/-- Every reachable jobset has strictly positive shares. -/
lemma Jobset.reachable_shares_pos {j : Jobset} (h : Jobset.Reachable j) :
    0 < j.shares := by
  induction h with
  | init => simp [Jobset.init]
  | setShares j j' n _ heq ih =>
      unfold Jobset.setShares at heq
      split_ifs at heq with hn
      cases heq
      show 0 < n.toNat
      omega
  | addStep j st d _ ih => simpa [Jobset.addStep] using ih
  | pruneSteps j now _ ih => simpa [Jobset.pruneSteps] using ih

/-- Splitting a sum of durations along a filter. -/
lemma sum_map_filter_split (l : List (Int × Int)) (p : Int × Int → Bool) :
    ((l.filter p).map (fun e => e.2)).sum
      + ((l.filter (fun e => !p e)).map (fun e => e.2)).sum
      = (l.map (fun e => e.2)).sum := by
  induction l with
  | nil => simp
  | cons a l ih =>
      by_cases hp : p a
      · simp [List.filter_cons, hp, add_assoc, ih]
      · simp only [List.filter_cons, hp, Bool.not_false, if_false, if_true,
          Bool.false_eq_true, List.map_cons, List.sum_cons]
        omega

/-! ### Retry budget (`state.hh` lines 255–257) -/

namespace State

/-- `State::maxTries` from `state.hh` (`const unsigned int maxTries = 5`). -/
def maxTries : Nat := 5

/-- `State::retryInterval` from `state.hh`
(`const unsigned int retryInterval = 60`, in seconds). -/
def retryInterval : Nat := 60

/-- `State::retryBackoff` from `state.hh` (`const float retryBackoff = 3.0`;
the small integer powers taken of it are exact, so it is embedded as the
natural number 3). -/
def retryBackoff : Nat := 3

end State

/-- Modelled from the spec: the retry decision of the builder worker (§4.6),
whose code lives in an implementation file that is not part of this
repository snapshot.  With `tries` already incremented: if
`tries > maxTries` the step is converted to a terminal failure (`none`);
otherwise a retry is scheduled at
`now + retryInterval * retryBackoff ^ (tries - 1)`. -/
def retryDecision (tries : Nat) (now : Int) : Option Int :=
  if tries > State.maxTries then none
  else some (now + State.retryInterval * State.retryBackoff ^ (tries - 1))

/-! ### Build finalization flag (`state.hh` line 120) -/

/-- Modelled from the spec: the operations that touch a build after its
creation.  `Build::finishedInDB` is declared in `state.hh` with the in-class
initialiser `{false}`; the code mutating it lives in implementation files
that are not part of this repository snapshot.  Per §3, §4.3 and §4.7 of the
spec, a build is mutated by the queue monitor (priority bumps) and by the
outcome reducer (finalization); only finalization writes the flag, setting
it to true. -/
inductive BuildOp where
  | finalize
  | bumpPriority (globalPriority localPriority : Int)
deriving DecidableEq, Repr

/-- Effect of one build operation on the `finishedInDB` flag. -/
def applyFinishedInDB (b : Bool) : BuildOp → Bool
  | .finalize => true
  | .bumpPriority _ _ => b

/-- The successive values of `finishedInDB` over a lifetime of operations,
starting from the in-class initialiser `false`. -/
def finishedTrace (ops : List BuildOp) : List Bool :=
  ops.scanl applyFinishedInDB false

/-- Number of false→true transitions between adjacent trace values. -/
def riseCount : List Bool → Nat
  | [] => 0
  | [_] => 0
  | a :: b :: rest => (if a = false ∧ b = true then 1 else 0) + riseCount (b :: rest)

/-- Number of true→false transitions between adjacent trace values. -/
def fallCount : List Bool → Nat
  | [] => 0
  | [_] => 0
  | a :: b :: rest => (if a = true ∧ b = false then 1 else 0) + fallCount (b :: rest)

lemma riseCount_cons_scanl (x b : Bool) (ops : List BuildOp) :
    riseCount (x :: ops.scanl applyFinishedInDB b) =
      (if x = false ∧ b = true then 1 else 0)
        + riseCount (ops.scanl applyFinishedInDB b) := by
  cases ops <;> rfl

lemma fallCount_cons_scanl (x b : Bool) (ops : List BuildOp) :
    fallCount (x :: ops.scanl applyFinishedInDB b) =
      (if x = true ∧ b = false then 1 else 0)
        + fallCount (ops.scanl applyFinishedInDB b) := by
  cases ops <;> rfl

/-- Once `finishedInDB` is true it stays true: the trace from `true` is
constantly true and records no transitions. -/
lemma trace_from_true (ops : List BuildOp) :
    ops.scanl applyFinishedInDB true = List.replicate (ops.length + 1) true ∧
    riseCount (ops.scanl applyFinishedInDB true) = 0 ∧
    fallCount (ops.scanl applyFinishedInDB true) = 0 := by
  induction ops with
  | nil => exact ⟨rfl, rfl, rfl⟩
  | cons op ops ih =>
      have hstep : applyFinishedInDB true op = true := by
        cases op <;> rfl
      refine ⟨?_, ?_, ?_⟩
      · simp [List.scanl, hstep, ih.1, List.replicate_succ]
      · rw [List.scanl, hstep, riseCount_cons_scanl]
        simp [ih.2.1]
      · rw [List.scanl, hstep, fallCount_cons_scanl]
        simp [ih.2.2]

/-! ### System type of a step (`state.hh` lines 136–140) -/

/-- Modelled from the spec: the computation of `Step::systemType`, performed
by the queue monitor in an implementation file that is not part of this
repository snapshot.  `state.hh` documents the field as "concatenation of
drv.platform and requiredSystemFeatures", and §3 of the spec derives
`systemType` as the platform concatenated with the sorted required features.
The features live in a `std::set<std::string>`, which iterates in sorted
order, so the embedding sorts the feature list and appends each feature of
the sorted listing to the platform. -/
def computeSystemType (platform : String) (features : List String) : String :=
  (List.insertionSort (· ≤ ·) features).foldl (fun acc f => acc ++ f) platform

lemma foldl_append_eq_join (l : List String) (acc : String) :
    l.foldl (fun a f => a ++ f) acc = acc ++ String.join l := by
  induction l generalizing acc with
  | nil => simp [String.join]
  | cons a l ih =>
      rw [List.foldl_cons, ih]
      show (acc ++ a) ++ String.join l = acc ++ String.join (a :: l)
      rw [String.append_assoc]
      congr 1
      exact (ih a).symm

/-! ### Step state defaults (`state.hh` lines 142–183) -/

/-- `Step::State` from `state.hh` with its in-class initialisers.  Pointer
sets and lists are embedded by the identifying keys they reference
(derivation paths for steps, build ids for builds, `(project, jobset)` pairs
for jobsets).  `lowestShareUsed` is a raw `double` carrying no in-class
initialiser — it holds no defined value until first assigned — so it is
embedded as an `Option` that starts out `none`.  The two `system_time`
fields (`after`, `runnableSince`) are value-initialised to the epoch and are
not tracked by any claim. -/
structure StepState where
  created : Bool
  deps : List String
  rdeps : List String
  builds : List Nat
  jobsets : List (String × String)
  tries : Nat
  highestGlobalPriority : Int
  lowestShareUsed : Option ℚ
  highestLocalPriority : Int
  lowestBuildID : Nat

/-- A default-constructed `Step::State`, field by field from the in-class
initialisers of `state.hh`; `lowestBuildID` starts at
`std::numeric_limits<BuildID>::max()` with `BuildID` a 32-bit
`unsigned int`. -/
def StepState.init : StepState :=
  { created := false
    deps := []
    rdeps := []
    builds := []
    jobsets := []
    tries := 0
    highestGlobalPriority := 0
    lowestShareUsed := none
    highestLocalPriority := 0
    lowestBuildID := 2 ^ 32 - 1 }

/-! ### Machines and capability matching (`state.hh` lines 202–247) -/

/-- The fields of a `Step` consulted by `Machine::supportsStep`: the
derivation's platform, the required system features, and the
"prefer local build" flag.  `state.hh` stores the features in a
`std::set<std::string>`; only membership matters to `supportsStep`, so the
set is embedded as a list of strings. -/
structure Step where
  platform : String
  requiredSystemFeatures : List String
  preferLocalBuild : Bool

/-- `Machine` from `state.hh`: declared system types and feature sets
(each a `std::set<std::string>`, embedded as a list of strings). -/
structure Machine where
  systemTypes : List String
  supportedFeatures : List String
  mandatoryFeatures : List String

/-- `Machine::supportsStep` from `state.hh`:

```cpp
if (systemTypes.find(step->drv.platform) == systemTypes.end()) return false;
for (auto & f : mandatoryFeatures)
    if (step->requiredSystemFeatures.find(f) == step->requiredSystemFeatures.end()
        && !(step->preferLocalBuild && f == "local"))
        return false;
for (auto & f : step->requiredSystemFeatures)
    if (supportedFeatures.find(f) == supportedFeatures.end()) return false;
return true;
```

The two loops return `false` as soon as one element fails its test, which is
the same result as testing whether some element fails. -/
def Machine.supportsStep (m : Machine) (step : Step) : Bool :=
  if !m.systemTypes.contains step.platform then false
  else if m.mandatoryFeatures.any (fun f =>
      !step.requiredSystemFeatures.contains f
        && !(step.preferLocalBuild && f == "local")) then false
  else if step.requiredSystemFeatures.any (fun f =>
      !m.supportedFeatures.contains f) then false
  else true

end Hydra

namespace Hydra

/-- **C1.** `Machine::supportsStep` returns `true` iff the step's platform is
among the machine's declared system types, every mandatory feature of the
machine is either a required system feature of the step or is `"local"` while
the step prefers local builds, and every required system feature of the step
is among the machine's supported features. -/
theorem supportsStep_iff (m : Machine) (s : Step) :
    m.supportsStep s = true ↔
      s.platform ∈ m.systemTypes ∧
      (∀ f ∈ m.mandatoryFeatures,
        f ∈ s.requiredSystemFeatures ∨ (f = "local" ∧ s.preferLocalBuild)) ∧
      (∀ f ∈ s.requiredSystemFeatures, f ∈ m.supportedFeatures) := by
  unfold Machine.supportsStep
  split_ifs with h1 h2 h3
  · have hA : s.platform ∉ m.systemTypes := by simpa [List.elem_iff] using h1
    simp [hA]
  · have hB : ¬ ∀ f ∈ m.mandatoryFeatures,
        f ∈ s.requiredSystemFeatures ∨ (f = "local" ∧ s.preferLocalBuild = true) := by
      simp only [List.any_eq_true, Bool.and_eq_true, Bool.not_eq_true',
        List.elem_iff] at h2
      push_neg
      obtain ⟨f, hf, hr, hl⟩ := h2
      refine ⟨f, hf, ?_, ?_⟩
      · simpa [List.elem_iff] using hr
      · intro hfl hpl
        rw [hfl] at hl
        simp [hpl] at hl
    simp only [Bool.false_eq_true, false_iff]
    intro hc
    exact hB hc.2.1
  · have hC : ¬ ∀ f ∈ s.requiredSystemFeatures, f ∈ m.supportedFeatures := by
      simp only [List.any_eq_true, Bool.not_eq_true', List.elem_iff] at h3
      push_neg
      obtain ⟨f, hf, hs⟩ := h3
      exact ⟨f, hf, by simpa [List.elem_iff] using hs⟩
    simp only [Bool.false_eq_true, false_iff]
    intro hc
    exact hC hc.2.2
  · have hA : s.platform ∈ m.systemTypes := by
      by_contra hA
      exact h1 (by simpa [List.elem_iff] using hA)
    have hB : ∀ f ∈ m.mandatoryFeatures,
        f ∈ s.requiredSystemFeatures ∨ (f = "local" ∧ s.preferLocalBuild = true) := by
      intro f hf
      have h2f := List.any_eq_false.mp (Bool.eq_false_iff.mpr h2) f hf
      by_cases hr : f ∈ s.requiredSystemFeatures
      · exact Or.inl hr
      · right
        simp only [List.elem_iff, hr, Bool.and_eq_true, Bool.not_eq_true',
          decide_eq_false_iff_not, not_and, Bool.not_eq_false] at h2f
        have := h2f (by simpa [List.elem_iff] using hr)
        constructor
        · simpa using this.2
        · exact this.1
    have hC : ∀ f ∈ s.requiredSystemFeatures, f ∈ m.supportedFeatures := by
      intro f hf
      have h3f := List.any_eq_false.mp (Bool.eq_false_iff.mpr h3) f hf
      simpa [List.elem_iff] using h3f
    exact iff_of_true rfl ⟨hA, hB, hC⟩

/-- **C2.** The persisted build-status codes are exactly
0, 1, 2, 3, 6, 7, 9, 10; the build-step-status codes are exactly
0, 1, 4, 7, 8, 9, 10 plus 100; and 100 (`bssBusy`) is exactly the one
build-step status that is never stored as a terminal status. -/
theorem status_codes_spec :
    BuildStatus.all.map BuildStatus.code = [0, 1, 2, 3, 6, 7, 9, 10] ∧
    (∀ b : BuildStatus, b ∈ BuildStatus.all) ∧
    BuildStepStatus.all.map BuildStepStatus.code = [0, 1, 4, 7, 8, 9, 10, 100] ∧
    (∀ s : BuildStepStatus, s ∈ BuildStepStatus.all) ∧
    (∀ s : BuildStepStatus, s.stored = false ↔ s = .bssBusy) ∧
    (∀ s : BuildStepStatus, s.code = 100 ↔ s = .bssBusy) := by
  refine ⟨rfl, ?_, rfl, ?_, ?_, ?_⟩
  · intro b; cases b <;> simp [BuildStatus.all]
  · intro s; cases s <;> simp [BuildStepStatus.all]
  · intro s; cases s <;> simp [BuildStepStatus.stored]
  · intro s; cases s <;> simp [BuildStepStatus.code]

/-- **C3.** A remote build result can be retried (`RemoteResult::canRetry`)
iff its status is transient failure or misc failure; success, permanent
failure, timeout, log-limit-exceeded and output-rejected are never
retryable. -/
theorem canRetry_iff (r : RemoteResult) :
    (r.canRetry = true ↔
      r.status = .TransientFailure ∨ r.status = .MiscFailure) ∧
    ((r.status = .Success ∨ r.status = .PermanentFailure ∨
      r.status = .TimedOut ∨ r.status = .LogLimitExceeded ∨
      r.status = .OutputRejected) → r.canRetry = false) := by
  constructor
  · cases h : r.status <;> simp [RemoteResult.canRetry, h]
  · rintro (h | h | h | h | h) <;> simp [RemoteResult.canRetry, h]

/-- **C4.** The retry budget constants are `maxTries = 5`,
`retryInterval = 60` seconds and `retryBackoff = 3`, and the retry decision
turns a step whose tries counter exceeds 5 into a terminal failure while an
earlier retry is scheduled at `now + 60 * 3 ^ (tries - 1)` seconds. -/
theorem retry_budget (tries : Nat) (now : Int) :
    State.maxTries = 5 ∧ State.retryInterval = 60 ∧ State.retryBackoff = 3 ∧
    retryDecision tries now =
      if tries > 5 then none else some (now + 60 * 3 ^ (tries - 1)) := by
  refine ⟨rfl, rfl, rfl, ?_⟩
  unfold retryDecision State.maxTries State.retryInterval State.retryBackoff
  split_ifs with h
  · rfl
  · push_cast
    ring_nf

/-- **C5.** After pruning its step window at time `now`, a jobset's
`shareUsed` equals the sum of the recorded durations whose start time lies
within the last `schedulingWindow = 24·60·60` seconds, divided by its
shares.  The hypothesis is the bookkeeping invariant of the window: the
cached `seconds` equals the total duration recorded in it, which holds for
the empty window of a fresh jobset and is preserved by `addStep` and
`pruneSteps`. -/
theorem shareUsed_after_prune (j : Jobset) (now : Int)
    (hinv : j.seconds = (j.steps.map (fun e => e.2)).sum) :
    (j.pruneSteps now).shareUsed =
      (((((j.steps.filter
          (fun e => now - Jobset.schedulingWindow < e.1)).map
            (fun e => e.2)).sum : ℤ)) : ℚ) / (j.shares : ℚ) := by
  have hsplit := sum_map_filter_split j.steps
    (fun e => decide (now - Jobset.schedulingWindow < e.1))
  have hint : (j.pruneSteps now).seconds =
      ((j.steps.filter
          (fun e => now - Jobset.schedulingWindow < e.1)).map
        (fun e => e.2)).sum := by
    show j.seconds - _ = _
    rw [hinv]
    linarith [hsplit]
  unfold Jobset.shareUsed
  rw [hint]
  rfl

/-- Witness for C5: a concrete jobset whose window holds one entry inside
and one outside the 24-hour window. -/
theorem shareUsed_after_prune_witness :
    (Jobset.mk 100 2 [(999900, 30), (0, 70)]).seconds
        = ((Jobset.mk 100 2 [(999900, 30), (0, 70)]).steps.map
            (fun e => e.2)).sum ∧
    ((Jobset.mk 100 2 [(999900, 30), (0, 70)]).pruneSteps 1000000).shareUsed
      = ((((((Jobset.mk 100 2 [(999900, 30), (0, 70)]).steps.filter
          (fun e => 1000000 - Jobset.schedulingWindow < e.1)).map
            (fun e => e.2)).sum : ℤ)) : ℚ)
          / ((Jobset.mk 100 2 [(999900, 30), (0, 70)]).shares : ℚ) :=
  ⟨by decide, shareUsed_after_prune (Jobset.mk 100 2 [(999900, 30), (0, 70)])
    1000000 (by decide)⟩

/-- **C6.** Every jobset reachable through the public mutators has strictly
positive shares: the in-class initialiser starts it at 1 and `setShares`
rejects (renders `none`, for the failed `assert`) every non-positive
argument, so no operation can make `shares ≤ 0`. -/
theorem jobset_shares_invariant (j : Jobset) (h : Jobset.Reachable j) :
    0 < j.shares ∧ ∀ n : Int, n ≤ 0 → j.setShares n = none := by
  refine ⟨Jobset.reachable_shares_pos h, fun n hn => ?_⟩
  unfold Jobset.setShares
  simp [not_lt.mpr hn, Int.not_lt.mpr hn]

/-- Witness for C6 at the freshly constructed jobset. -/
theorem jobset_shares_invariant_witness :
    0 < Jobset.init.shares ∧
      ∀ n : Int, n ≤ 0 → Jobset.init.setShares n = none :=
  jobset_shares_invariant Jobset.init Jobset.Reachable.init

/-- **C9.** `Jobset::shareUsed` never divides by zero: a fresh jobset has
`shares = 1`, and since `setShares` only stores strictly positive values,
`shares ≥ 1` (hence a non-zero rational denominator) holds whenever
`shareUsed` is evaluated on a reachable jobset. -/
theorem shareUsed_denominator_nonzero (j : Jobset) (h : Jobset.Reachable j) :
    Jobset.init.shares = 1 ∧ 1 ≤ j.shares ∧ (j.shares : ℚ) ≠ 0 := by
  have hp := Jobset.reachable_shares_pos h
  refine ⟨rfl, hp, ?_⟩
  exact_mod_cast Nat.pos_iff_ne_zero.mp hp

/-- Witness for C9 at the freshly constructed jobset. -/
theorem shareUsed_denominator_nonzero_witness :
    Jobset.init.shares = 1 ∧ 1 ≤ Jobset.init.shares ∧
      ((Jobset.init.shares : ℚ)) ≠ 0 :=
  shareUsed_denominator_nonzero Jobset.init Jobset.Reachable.init

/-- **C7.** Over any lifetime of build operations, the `finishedInDB` flag
starts at the in-class initialiser `false`, never transitions from true back
to false, and transitions from false to true at most once: a build is
finalized in the database at most once. -/
theorem finishedInDB_at_most_once (ops : List BuildOp) :
    (finishedTrace ops).head? = some false ∧
    fallCount (finishedTrace ops) = 0 ∧
    riseCount (finishedTrace ops) ≤ 1 := by
  refine ⟨by cases ops <;> rfl, ?_, ?_⟩
  · unfold finishedTrace
    induction ops with
    | nil => rfl
    | cons op ops ih =>
        rw [List.scanl]
        cases op with
        | finalize =>
            show fallCount (false :: List.scanl applyFinishedInDB true ops) = 0
            rw [fallCount_cons_scanl]
            simp [(trace_from_true ops).2.2]
        | bumpPriority g l =>
            show fallCount (false :: List.scanl applyFinishedInDB false ops) = 0
            rw [fallCount_cons_scanl]
            simpa using ih
  · unfold finishedTrace
    induction ops with
    | nil => simp [riseCount]
    | cons op ops ih =>
        rw [List.scanl]
        cases op with
        | finalize =>
            show riseCount (false :: List.scanl applyFinishedInDB true ops) ≤ 1
            rw [riseCount_cons_scanl]
            simp [(trace_from_true ops).2.1]
        | bumpPriority g l =>
            show riseCount (false :: List.scanl applyFinishedInDB false ops) ≤ 1
            rw [riseCount_cons_scanl]
            simpa using ih

/-- **C8.** A step's `systemType` is its derivation platform concatenated
with its required system features in sorted order: there is a sorted
rearrangement `l` of the required features such that the computed string is
the platform followed by the concatenation of `l`.  Being a function of the
platform and the feature set alone (sorting makes the feature order
canonical), it is a well-defined capability key for matching steps to
machines. -/
theorem systemType_spec (platform : String) (features : List String) :
    ∃ l : List String, l.Sorted (· ≤ ·) ∧ l.Perm features ∧
      computeSystemType platform features = platform ++ String.join l := by
  refine ⟨List.insertionSort (· ≤ ·) features, List.sorted_insertionSort _ _,
    List.perm_insertionSort _ _, ?_⟩
  exact foldl_append_eq_join _ _

/-- **C10.** A default-constructed `Step::State` has `created = false`,
`tries = 0`, empty `deps`, `rdeps`, `builds` and `jobsets`,
`highestGlobalPriority = 0`, `highestLocalPriority = 0`, `lowestShareUsed`
still undefined, and `lowestBuildID` equal to the largest representable
`BuildID`, `2^32 - 1`; consequently attaching any build with a positive
priority raises the cached priority maxima, and any build id below
`2^32 - 1` strictly lowers the cached minimum build id. -/
theorem stepState_init_spec (bid : Nat) (p q : Int)
    (hbid : bid < 2 ^ 32 - 1) (hp : 0 < p) (hq : 0 < q) :
    StepState.init.created = false ∧
    StepState.init.tries = 0 ∧
    StepState.init.deps = [] ∧
    StepState.init.rdeps = [] ∧
    StepState.init.builds = [] ∧
    StepState.init.jobsets = [] ∧
    StepState.init.highestGlobalPriority = 0 ∧
    StepState.init.highestLocalPriority = 0 ∧
    StepState.init.lowestBuildID = 2 ^ 32 - 1 ∧
    StepState.init.lowestShareUsed = none ∧
    min bid StepState.init.lowestBuildID < StepState.init.lowestBuildID ∧
    StepState.init.highestGlobalPriority
      < max p StepState.init.highestGlobalPriority ∧
    StepState.init.highestLocalPriority
      < max q StepState.init.highestLocalPriority := by
  refine ⟨rfl, rfl, rfl, rfl, rfl, rfl, rfl, rfl, rfl, rfl, ?_, ?_, ?_⟩
  · show min bid (2 ^ 32 - 1) < 2 ^ 32 - 1
    omega
  · show (0 : ℤ) < max p 0
    omega
  · show (0 : ℤ) < max q 0
    omega

/-- Witness for C10 at a concrete build id and concrete priorities. -/
theorem stepState_init_spec_witness :
    StepState.init.created = false ∧
    StepState.init.tries = 0 ∧
    StepState.init.deps = [] ∧
    StepState.init.rdeps = [] ∧
    StepState.init.builds = [] ∧
    StepState.init.jobsets = [] ∧
    StepState.init.highestGlobalPriority = 0 ∧
    StepState.init.highestLocalPriority = 0 ∧
    StepState.init.lowestBuildID = 2 ^ 32 - 1 ∧
    StepState.init.lowestShareUsed = none ∧
    min 7 StepState.init.lowestBuildID < StepState.init.lowestBuildID ∧
    StepState.init.highestGlobalPriority
      < max 100 StepState.init.highestGlobalPriority ∧
    StepState.init.highestLocalPriority
      < max 1 StepState.init.highestLocalPriority :=
  stepState_init_spec 7 100 1 (by norm_num) (by norm_num) (by norm_num)

end Hydra
